import Mathlib

/- Verification development for a small Monte Carlo path tracer (main.cpp, gmath.h).
   The program is embedded shallowly over the real numbers: C++ doubles become ℝ,
   the random generators become explicitly passed draw values, and the console
   output of the unknown-material branch becomes an explicit error flag.
   The repository ships only gmath.h (declarations); the vector-algebra
   implementations (gmath.cpp) are absent, so those operations are modelled
   from the spec (section 4.1), as marked on each definition. -/

noncomputable section

namespace RayTracer

/-- Modelled from the spec: gmath's `Vec3`, three real-valued components (x,y,z),
used both as a spatial vector and (aliased as `Colour`) as a linear RGB colour. -/
@[ext]
structure Vec3 where
  x : ℝ
  y : ℝ
  z : ℝ

/-- Modelled from the spec: component-wise addition (gmath `operator+`). -/
instance : Add Vec3 := ⟨fun u v => ⟨u.x + v.x, u.y + v.y, u.z + v.z⟩⟩

/-- Modelled from the spec: component-wise subtraction (gmath `operator-`). -/
instance : Sub Vec3 := ⟨fun u v => ⟨u.x - v.x, u.y - v.y, u.z - v.z⟩⟩

/-- Modelled from the spec: negation (gmath unary `operator-`). -/
instance : Neg Vec3 := ⟨fun v => ⟨-v.x, -v.y, -v.z⟩⟩

/-- Modelled from the spec: scaling by a scalar (gmath `operator*(t, v)` and `operator*(v, t)`). -/
instance : SMul ℝ Vec3 := ⟨fun t v => ⟨t * v.x, t * v.y, t * v.z⟩⟩

/-- Modelled from the spec: component-wise (Hadamard) product (gmath `operator*(u, v)`),
used by the integrator to attenuate colour by a surface's reflectance. -/
instance : Mul Vec3 := ⟨fun u v => ⟨u.x * v.x, u.y * v.y, u.z * v.z⟩⟩

/-- Modelled from the spec: division of a vector by a scalar (gmath `operator/`). -/
instance : HDiv Vec3 ℝ Vec3 := ⟨fun v t => ⟨v.x / t, v.y / t, v.z / t⟩⟩

/-- Modelled from the spec: the dot product (gmath `dot`). -/
def dot (u v : Vec3) : ℝ := u.x * v.x + u.y * v.y + u.z * v.z

/-- Modelled from the spec: the cross product (gmath `cross`), right-handed. -/
def cross (u v : Vec3) : Vec3 :=
  ⟨u.y * v.z - u.z * v.y, u.z * v.x - u.x * v.z, u.x * v.y - u.y * v.x⟩

/-- Modelled from the spec: squared Euclidean norm (gmath `Vec3::abs2`). -/
def Vec3.abs2 (v : Vec3) : ℝ := v.x * v.x + v.y * v.y + v.z * v.z

/-- Modelled from the spec: Euclidean norm (gmath `Vec3::abs`). -/
def Vec3.abs (v : Vec3) : ℝ := Real.sqrt v.abs2

/-- Modelled from the spec: unit-vector normalization `v / ‖v‖` (gmath `Vec3::unit`);
the spec declares it undefined for the zero vector (over ℝ the embedding yields 0). -/
def Vec3.unit (v : Vec3) : Vec3 := v / v.abs

/-- Modelled from the spec: element-wise power (gmath `pow(v, t)`), used for gamma correction. -/
def Vec3.epow (v : Vec3) (t : ℝ) : Vec3 := ⟨Real.rpow v.x t, Real.rpow v.y t, Real.rpow v.z t⟩

/-- gmath's alias: a Colour is a Vec3. -/
abbrev Colour := Vec3

/-- Global `min_dist_threshold` of main.cpp (line 19): minimum distance a point of
intersection must be from the start of a line to be counted. -/
def min_dist_threshold : ℝ := 0.001

/-- `Line3` of main.cpp: a line given by a point `p` and a direction `d`. -/
structure Line3 where
  p : Vec3
  d : Vec3

/-- `Line3::operator()(t)` of main.cpp: the position `p + t·d` at parameter `t`. -/
def Line3.eval (l : Line3) (t : ℝ) : Vec3 := l.p + t • l.d

/-- The C++ `enum class Material { matte, metal, glass }` of main.cpp, modelled by its
underlying integer code (0, 1, 2) so that values outside the three enumerators — which
the `default:` branch of `Sphere3::get_next_ray` guards against — are representable. -/
abbrev Material := ℤ

/-- `Material::matte` (enumerator code 0). -/
def Material.matte : Material := 0

/-- `Material::metal` (enumerator code 1). -/
def Material.metal : Material := 1

/-- `Material::glass` (enumerator code 2). -/
def Material.glass : Material := 2

/-- The random draws consumed by one call of `Sphere3::get_next_ray`:
`n1`, `n2`, `n3` are the `normal_double()` draws for the random unit vector X
(matte and metal branches), and `u` is the `random_double()` draw compared against
the Schlick reflectance (glass branch). -/
structure Draws where
  n1 : ℝ
  n2 : ℝ
  n3 : ℝ
  u : ℝ

/-- The observable outcome of `Sphere3::get_next_ray`: the returned `Line3`, plus a flag
recording whether the `default:` branch emitted its error message on std::cerr. -/
structure ScatterResult where
  ray : Line3
  errored : Bool

/-- `Sphere3` of main.cpp (with the `Hittable` base-class members flattened in):
centre `p`, radius `r`, the material payload, and the `is_hollow` flag. -/
structure Sphere3 where
  material : Material
  reflectance : Colour
  fuzz : ℝ
  refractive_index : ℝ
  p : Vec3
  r : ℝ
  is_hollow : Bool

/-- The C++ constructor `Sphere3()` (main.cpp line 149): sets p=(0,0,0), r=0; the
`Hittable` base supplies material=matte, reflectance=(0.5,0.5,0.5), fuzz=0,
refractive_index=1.5.  The member `is_hollow` is NOT initialized by this constructor:
the `junk` argument models the indeterminate value it is left holding. -/
def Sphere3.mk0 (junk : Bool) : Sphere3 :=
  { material := Material.matte, reflectance := ⟨0.5, 0.5, 0.5⟩, fuzz := 0,
    refractive_index := 1.5, p := ⟨0, 0, 0⟩, r := 0, is_hollow := junk }

/-- The C++ constructor `Sphere3(centre, radius)` (main.cpp line 150).  `is_hollow` is
NOT initialized: `junk` models the indeterminate value it is left holding. -/
def Sphere3.mkPR (centre : Vec3) (radius : ℝ) (junk : Bool) : Sphere3 :=
  { material := Material.matte, reflectance := ⟨0.5, 0.5, 0.5⟩, fuzz := 0,
    refractive_index := 1.5, p := centre, r := radius, is_hollow := junk }

/-- The C++ constructor `Sphere3(centre, radius, material)` (main.cpp line 153), which
runs `Hittable::setup()`: glass forces reflectance to (1,1,1).  `is_hollow` is NOT
initialized: `junk` models the indeterminate value it is left holding. -/
def Sphere3.mkPRM (centre : Vec3) (radius : ℝ) (m : Material) (junk : Bool) : Sphere3 :=
  { material := m,
    reflectance := if m = Material.glass then ⟨1, 1, 1⟩ else ⟨0.5, 0.5, 0.5⟩,
    fuzz := 0, refractive_index := 1.5, p := centre, r := radius, is_hollow := junk }

/-- The C++ constructor `Sphere3(centre, radius, material, reflectance, fuzz, is_hollow)`
(main.cpp line 154), which runs `Hittable::setup()`: glass forces reflectance to (1,1,1).
This is the only constructor that initializes `is_hollow`. -/
def Sphere3.mkFull (centre : Vec3) (radius : ℝ) (m : Material) (refl : Colour)
    (fz : ℝ) (hollow : Bool) : Sphere3 :=
  { material := m,
    reflectance := if m = Material.glass then ⟨1, 1, 1⟩ else refl,
    fuzz := fz, refractive_index := 1.5, p := centre, r := radius, is_hollow := hollow }

/-- The same constructor called with the defaulted trailing argument `is_hollow=false`. -/
def Sphere3.mkFull5 (centre : Vec3) (radius : ℝ) (m : Material) (refl : Colour)
    (fz : ℝ) : Sphere3 :=
  Sphere3.mkFull centre radius m refl fz false

/-- `Sphere3::intersects` (main.cpp lines 157-176): the half-b form of the ray/sphere
quadratic.  Returns -1.0 as the no-hit sentinel when the discriminant is negative;
otherwise the smaller root if it exceeds `min_dist_threshold`, else the larger root. -/
def Sphere3.intersects (s : Sphere3) (ray : Line3) : ℝ :=
  let oc := ray.p - s.p
  let a := ray.d.abs2
  let half_b := dot oc ray.d
  let c := oc.abs2 - s.r * s.r
  let discriminant := half_b * half_b - a * c
  if discriminant < 0 then -1.0
  else
    let smaller := (-half_b - Real.sqrt discriminant) / a
    if smaller > min_dist_threshold then smaller
    else (-half_b + Real.sqrt discriminant) / a

/-- `Sphere3::schlick_reflectance` (main.cpp lines 237-241). -/
def schlick_reflectance (cos_theta rho : ℝ) : ℝ :=
  let r0 := (1 - rho) / (1 + rho)
  let r1 := r0 * r0
  r1 + (1 - r1) * (1 - cos_theta) ^ 5

/-- The entry/exit decision of the glass branch of `Sphere3::get_next_ray`
(main.cpp lines 206-212): if `dot(normal_unit, ray.d) > 0` (ray going from inside to
outside) the normal is inverted and the refraction ratio is `1/refractive_index` for a
hollow surface, `refractive_index` otherwise; in the other case the normal is kept and
the ratio is `refractive_index` for a hollow surface, `1/refractive_index` otherwise.
Returns the (possibly inverted) normal together with the refraction ratio. -/
def glassNormalRefr (normal_unit d : Vec3) (hollow : Bool) (ri : ℝ) : Vec3 × ℝ :=
  if dot normal_unit d > 0 then
    (-normal_unit, if hollow then 1 / ri else ri)
  else
    (normal_unit, if hollow then ri else 1 / ri)

/-- The pre-normalization scatter direction of the matte branch of
`Sphere3::get_next_ray` (main.cpp lines 184-191): outward unit normal plus a random
unit vector. -/
def Sphere3.matteDir (s : Sphere3) (dr : Draws) (ray : Line3) (t : ℝ) : Vec3 :=
  let normal_unit := (ray.eval t - s.p).unit
  let X := (Vec3.mk dr.n1 dr.n2 dr.n3).unit
  normal_unit + X

/-- The pre-normalization scatter direction of the metal branch of
`Sphere3::get_next_ray` (main.cpp lines 192-196): mirror reflection perturbed by
`fuzz` times a random unit vector. -/
def Sphere3.metalDir (s : Sphere3) (dr : Draws) (ray : Line3) (t : ℝ) : Vec3 :=
  let normal_unit := (ray.eval t - s.p).unit
  let X := (Vec3.mk dr.n1 dr.n2 dr.n3).unit
  ray.d - (2 * dot ray.d normal_unit) • normal_unit + s.fuzz • X

/-- The pre-normalization scatter direction of the glass branch of
`Sphere3::get_next_ray` (main.cpp lines 197-227): orient the normal and pick the
refraction ratio via `glassNormalRefr`, then reflect on total internal reflection or a
Schlick draw, otherwise refract by Snell's law split into perpendicular and parallel
components. -/
def Sphere3.glassDir (s : Sphere3) (dr : Draws) (ray : Line3) (t : ℝ) : Vec3 :=
  let normal_unit := (ray.eval t - s.p).unit
  let nr := glassNormalRefr normal_unit ray.d s.is_hollow s.refractive_index
  let n := nr.1
  let rr := nr.2
  let cos_theta := -(dot n ray.d.unit)
  if rr * Real.sqrt (1 - cos_theta * cos_theta) > 1 ∨ schlick_reflectance cos_theta rr > dr.u then
    ray.d - (2 * dot ray.d n) • n
  else
    let perp := rr • (ray.d.unit + cos_theta • n)
    let par := (-Real.sqrt |1 - perp.abs2|) • n
    perp + par

/-- `Sphere3::get_next_ray` (main.cpp lines 178-234): switch on the material kind; every
recognized branch builds the scattered ray at origin `ray(t)` and the final
`ret_ray.d = ret_ray.d.unit()` re-normalizes its direction; the `default:` branch prints
an error to std::cerr (recorded here as `errored = true`) and returns the degenerate
`Line3(Vec3(0,0,0), Vec3(0,0,0))` directly, skipping the re-normalization. -/
def Sphere3.get_next_ray (s : Sphere3) (dr : Draws) (ray : Line3) (t : ℝ) : ScatterResult :=
  if s.material = Material.matte then
    ⟨⟨ray.eval t, (s.matteDir dr ray t).unit⟩, false⟩
  else if s.material = Material.metal then
    ⟨⟨ray.eval t, (s.metalDir dr ray t).unit⟩, false⟩
  else if s.material = Material.glass then
    ⟨⟨ray.eval t, (s.glassDir dr ray t).unit⟩, false⟩
  else
    ⟨⟨⟨0, 0, 0⟩, ⟨0, 0, 0⟩⟩, true⟩

/-- The branch selector of `Sphere3::get_next_ray`, exposed for stating properties: the
pre-normalization direction chosen by the switch (0 for an unrecognized kind, whose
branch never reaches the final normalization). -/
def Sphere3.scatterDir (s : Sphere3) (dr : Draws) (ray : Line3) (t : ℝ) : Vec3 :=
  if s.material = Material.matte then s.matteDir dr ray t
  else if s.material = Material.metal then s.metalDir dr ray t
  else if s.material = Material.glass then s.glassDir dr ray t
  else ⟨0, 0, 0⟩

/-- `Camera` of main.cpp: the stored inputs and the derived state `setup()` computes.
(C++ member `aspect_ratio` is called `aspect` here.) -/
structure Camera where
  up : Vec3
  lookat : Vec3
  look_direction : Vec3
  viewport_height : ℝ
  aspect : ℝ
  fov_deg : ℝ
  defocus_blur_angle_deg : ℝ
  focal_length : ℝ
  defocus_blur_radius : ℝ
  viewport_width : ℝ
  origin : Vec3
  d_right : Vec3
  d_up : Vec3

/-- The "any setting" `Camera` constructor of main.cpp (lines 72-88): stores the inputs —
normalizing the supplied look direction — then runs `setup()`, which derives focal
length, defocus-blur radius, viewport width, origin and the viewport basis. -/
def Camera.build (aspect : ℝ) (lookat look_direction : Vec3)
    (viewport_height fov_deg defocus_blur_angle_deg : ℝ) : Camera :=
  let ld := look_direction.unit
  let focal_length := viewport_height / (2 * Real.tan (fov_deg * (Real.pi / 180) * 0.5))
  let d_right := (cross ld ⟨0, 0, 1⟩).unit
  { up := ⟨0, 0, 1⟩
    lookat := lookat
    look_direction := ld
    viewport_height := viewport_height
    aspect := aspect
    fov_deg := fov_deg
    defocus_blur_angle_deg := defocus_blur_angle_deg
    focal_length := focal_length
    defocus_blur_radius := focal_length * Real.tan (defocus_blur_angle_deg * (Real.pi / 180) * 0.5)
    viewport_width := viewport_height * aspect
    origin := lookat - focal_length • ld
    d_right := d_right
    d_up := -(cross ld d_right).unit }

/-- `Camera::generate_ray` (main.cpp lines 90-107), with the random draws passed
explicitly: `u` is the `random_double()` under the square root and `g1`, `g2` the two
`normal_double()` draws of the defocus-disc offset.  The returned direction is
normalized. -/
def Camera.generate_ray (cam : Camera) (u g1 g2 : ℝ) (x_pos y_pos : ℝ) : Line3 :=
  let ray_origin :=
    if cam.defocus_blur_radius > 0 then
      cam.origin + (cam.defocus_blur_radius * Real.sqrt u) • (g1 • cam.d_up + g2 • cam.d_right).unit
    else cam.origin
  let ray_viewport :=
    cam.origin + cam.focal_length • cam.look_direction + (cam.viewport_width * x_pos) • cam.d_right
      + (cam.viewport_height * y_pos) • cam.d_up
  ⟨ray_origin, (ray_viewport - ray_origin).unit⟩

/-- The background ("sky") colour of `ray_recur` (main.cpp lines 283-288): blend between
white and sky blue by `t = 0.5·(unit(d).z + 1)`. -/
def background (ray : Line3) : Colour :=
  let t := 0.5 * (ray.d.unit.z + 1)
  (1 - t) • (⟨1, 1, 1⟩ : Colour) + t • ((⟨25, 114, 255⟩ : Colour) / (255 : ℝ))

/-- The closest-intersection scan of `ray_recur` (main.cpp lines 266-274): walk the
surface list in order keeping `(surface, index, t)` of the smallest intersection `t`
with `t > min_dist_threshold`.  The accumulator `none` models the initial
`t = infinity, smallest_idx = -1` state (against infinity the `intersect_t < t` test
always passes); the kept surface itself stands in for the code's later
`hittables[smallest_idx]` lookup. -/
def hitFold (ray : Line3) : List Sphere3 → ℕ → Option (Sphere3 × ℕ × ℝ) →
    Option (Sphere3 × ℕ × ℝ)
  | [], _, acc => acc
  | s :: rest, i, none =>
      if s.intersects ray > min_dist_threshold then
        hitFold ray rest (i + 1) (some (s, i, s.intersects ray))
      else
        hitFold ray rest (i + 1) none
  | s :: rest, i, some (s0, i0, t0) =>
      if s.intersects ray < t0 ∧ s.intersects ray > min_dist_threshold then
        hitFold ray rest (i + 1) (some (s, i, s.intersects ray))
      else
        hitFold ray rest (i + 1) (some (s0, i0, t0))

/-- The scene query: the closest-intersection scan started from the beginning of the
surface list with `t = infinity` (main.cpp lines 266-274). -/
def closestHit (surfaces : List Sphere3) (ray : Line3) : Option (Sphere3 × ℕ × ℝ) :=
  hitFold ray surfaces 0 none

/-- `ray_recur` (main.cpp lines 260-305), the recursive integrator, with the random
draws for each level supplied by `rands` (indexed by the remaining depth).  On a hit
with `n == 1` it returns black; on a hit with larger `n` it recurses on the scattered
ray and attenuates by the surface's reflectance; with no hit it returns the background
gradient.  (The fuel-0 equation is unreachable: main always starts at depth 50 and the
`n == 1` test stops the recursion; black is used there.) -/
def ray_recur (rands : ℕ → Draws) (surfaces : List Sphere3) : ℕ → Line3 → Colour
  | 0, ray =>
      match closestHit surfaces ray with
      | some _ => ⟨0, 0, 0⟩
      | none => background ray
  | n + 1, ray =>
      match closestHit surfaces ray with
      | some (s, _, t) =>
          if n + 1 = 1 then ⟨0, 0, 0⟩
          else s.reflectance * ray_recur rands surfaces n ((s.get_next_ray (rands (n + 1)) ray t).ray)
      | none => background ray

/-- The per-pixel averaging step of main (main.cpp line 391): the accumulated colour is
divided by `n_antialias + 1` (the C++ int is promoted to double). -/
def averagePixel (running_colour : Colour) (n_antialias : ℕ) : Colour :=
  running_colour / ((n_antialias : ℝ) + 1)

/-- The per-pixel estimate before gamma correction (main.cpp lines 377-391): accumulate
the integrator's colour over the samples actually taken, then apply main's averaging
step. -/
def pixelEstimate (samples : List Colour) : Colour :=
  averagePixel (samples.foldl (· + ·) ⟨0, 0, 0⟩) samples.length

/-- The gamma-corrected pixel value (main.cpp line 394): component-wise power 1/2. -/
def pixelValue (samples : List Colour) : Colour :=
  (pixelEstimate samples).epow 0.5

/-- The policy claimed in the spec (sections 4.5 and 7) for an unrecognized material
kind, stated of the embedded program: scattering at such a surface must be a fatal
configuration error, so the integrator must never continue by recursing on the
substitute ray that `get_next_ray`'s fall-through branch produces. -/
def noContinueOnUnknownKind : Prop :=
  ∀ (rands : ℕ → Draws) (surfaces : List Sphere3) (n : ℕ) (ray : Line3)
    (s : Sphere3) (i : ℕ) (t : ℝ),
    closestHit surfaces ray = some (s, i, t) →
    s.material ≠ Material.matte → s.material ≠ Material.metal → s.material ≠ Material.glass →
    ray_recur rands surfaces (n + 2) ray ≠
      s.reflectance * ray_recur rands surfaces (n + 1) ((s.get_next_ray (rands (n + 2)) ray t).ray)

/-- A concrete matte sphere (built like main.cpp's scene spheres, constructor line 154):
centre (0,0,3), radius 1. -/
def sphereW : Sphere3 := Sphere3.mkFull ⟨0, 0, 3⟩ 1 Material.matte ⟨0.5, 0.5, 0.5⟩ 0 false

/-- A concrete metal sphere: centre (0,0,3), radius 1, fuzz 0. -/
def sphereM : Sphere3 := Sphere3.mkFull ⟨0, 0, 3⟩ 1 Material.metal ⟨0.8, 0.8, 0.8⟩ 0 false

/-- A sphere whose material code (7) is none of the three enumerators, as a C++
`Material` cast from an out-of-range integer would produce. -/
def badS : Sphere3 := Sphere3.mkFull ⟨0, 0, 3⟩ 1 (7 : ℤ) ⟨0.8, 0.8, 0.8⟩ 0 false

/-- A concrete ray from the origin straight up the z axis. -/
def rayW : Line3 := ⟨⟨0, 0, 0⟩, ⟨0, 0, 1⟩⟩

/-- A concrete stream of random draws. -/
def rands0 : ℕ → Draws := fun _ => ⟨1, 0, 0, 0⟩

/-- A concrete set of draws for a single scatter. -/
def dr1 : Draws := ⟨1, 0, 0, 0⟩

theorem Vec3.add_def (u v : Vec3) : u + v = ⟨u.x + v.x, u.y + v.y, u.z + v.z⟩ := rfl

theorem Vec3.sub_def (u v : Vec3) : u - v = ⟨u.x - v.x, u.y - v.y, u.z - v.z⟩ := rfl

theorem Vec3.neg_def (v : Vec3) : -v = ⟨-v.x, -v.y, -v.z⟩ := rfl

theorem Vec3.smul_def (t : ℝ) (v : Vec3) : t • v = ⟨t * v.x, t * v.y, t * v.z⟩ := rfl

theorem Vec3.mul_def (u v : Vec3) : u * v = ⟨u.x * v.x, u.y * v.y, u.z * v.z⟩ := rfl

theorem Vec3.div_def (v : Vec3) (t : ℝ) : v / t = ⟨v.x / t, v.y / t, v.z / t⟩ := rfl

theorem Vec3.abs2_nonneg (v : Vec3) : 0 ≤ v.abs2 := by
  have hx := mul_self_nonneg v.x
  have hy := mul_self_nonneg v.y
  have hz := mul_self_nonneg v.z
  unfold Vec3.abs2
  linarith

theorem Vec3.sq_abs (v : Vec3) : v.abs ^ 2 = v.abs2 :=
  Real.sq_sqrt v.abs2_nonneg

theorem Vec3.abs_nonneg (v : Vec3) : 0 ≤ v.abs := Real.sqrt_nonneg _

theorem Vec3.abs2_eq_zero (v : Vec3) : v.abs2 = 0 ↔ v = ⟨0, 0, 0⟩ := by
  constructor
  · intro h
    have hx := mul_self_nonneg v.x
    have hy := mul_self_nonneg v.y
    have hz := mul_self_nonneg v.z
    unfold Vec3.abs2 at h
    have hx0 : v.x * v.x = 0 := by linarith
    have hy0 : v.y * v.y = 0 := by linarith
    have hz0 : v.z * v.z = 0 := by linarith
    refine Vec3.ext ?_ ?_ ?_ <;> rw [← mul_self_eq_zero] <;> assumption
  · intro h
    rw [h]
    simp [Vec3.abs2]

theorem Vec3.abs_pos (v : Vec3) (hv : v ≠ ⟨0, 0, 0⟩) : 0 < v.abs := by
  apply Real.sqrt_pos.mpr
  rcases lt_or_eq_of_le v.abs2_nonneg with h | h
  · exact h
  · exact absurd ((Vec3.abs2_eq_zero v).mp h.symm) hv

theorem Vec3.abs2_unit (v : Vec3) (hv : v ≠ ⟨0, 0, 0⟩) : v.unit.abs2 = 1 := by
  have ha : 0 < v.abs := v.abs_pos hv
  have ha2 : v.abs * v.abs = v.abs2 := Real.mul_self_sqrt v.abs2_nonneg
  have h2 : v.abs2 ≠ 0 := fun h => hv ((Vec3.abs2_eq_zero v).mp h)
  unfold Vec3.unit
  rw [Vec3.div_def]
  unfold Vec3.abs2 at ha2 h2 ⊢
  field_simp
  linarith [ha2]

theorem Vec3.abs_unit (v : Vec3) (hv : v ≠ ⟨0, 0, 0⟩) : v.unit.abs = 1 := by
  unfold Vec3.abs
  rw [v.abs2_unit hv, Real.sqrt_one]

theorem Vec3.abs2_smul (k : ℝ) (v : Vec3) : (k • v).abs2 = k ^ 2 * v.abs2 := by
  rw [Vec3.smul_def]
  unfold Vec3.abs2
  ring

theorem Vec3.abs_smul_of_nonneg (k : ℝ) (hk : 0 ≤ k) (v : Vec3) :
    (k • v).abs = k * v.abs := by
  unfold Vec3.abs
  rw [Vec3.abs2_smul, Real.sqrt_mul (sq_nonneg k), Real.sqrt_sq hk]

theorem Vec3.unit_smul (k : ℝ) (hk : 0 < k) (v : Vec3) : (k • v).unit = v.unit := by
  unfold Vec3.unit
  rw [Vec3.abs_smul_of_nonneg k hk.le, Vec3.smul_def, Vec3.div_def, Vec3.div_def]
  exact Vec3.ext (mul_div_mul_left _ _ hk.ne') (mul_div_mul_left _ _ hk.ne')
    (mul_div_mul_left _ _ hk.ne')

theorem intersects_geomW (m : Material) (refl : Colour) (fz : ℝ) (hol : Bool) :
    (Sphere3.mkFull ⟨0, 0, 3⟩ 1 m refl fz hol).intersects rayW = 2 := by
  norm_num [Sphere3.intersects, Sphere3.mkFull, rayW, Vec3.sub_def, Vec3.abs2, dot,
    min_dist_threshold, Real.sqrt_one]

theorem sphereW_int : sphereW.intersects rayW = 2 :=
  intersects_geomW Material.matte ⟨0.5, 0.5, 0.5⟩ 0 false

theorem sphereM_int : sphereM.intersects rayW = 2 :=
  intersects_geomW Material.metal ⟨0.8, 0.8, 0.8⟩ 0 false

theorem badS_int : badS.intersects rayW = 2 :=
  intersects_geomW (7 : ℤ) ⟨0.8, 0.8, 0.8⟩ 0 false

theorem closestHitW : closestHit [sphereW] rayW = some (sphereW, 0, 2) := by
  unfold closestHit
  simp only [hitFold, sphereW_int]
  norm_num [min_dist_threshold]

theorem closestHitW2 : closestHit [sphereW, sphereW] rayW = some (sphereW, 0, 2) := by
  unfold closestHit
  simp only [hitFold, sphereW_int]
  norm_num [min_dist_threshold]

theorem closestHitBad : closestHit [badS] rayW = some (badS, 0, 2) := by
  unfold closestHit
  simp only [hitFold, badS_int]
  norm_num [min_dist_threshold]

theorem hitFold_post (ray : Line3) (L : List Sphere3) :
    ∀ (i0 : ℕ) (acc : Option (Sphere3 × ℕ × ℝ)),
    (∀ s0 j0 t0, acc = some (s0, j0, t0) → t0 > min_dist_threshold) →
    ((hitFold ray L i0 acc = none →
        acc = none ∧ ∀ (j : ℕ) (sj : Sphere3), L[j]? = some sj →
          sj.intersects ray ≤ min_dist_threshold)
      ∧ (∀ (s : Sphere3) (i : ℕ) (t : ℝ), hitFold ray L i0 acc = some (s, i, t) →
          t > min_dist_threshold ∧
          (∀ (j : ℕ) (sj : Sphere3), L[j]? = some sj →
            sj.intersects ray > min_dist_threshold → t ≤ sj.intersects ray) ∧
          (acc = some (s, i, t) ∨
            ∃ j : ℕ, L[j]? = some s ∧ i = i0 + j ∧ t = s.intersects ray ∧
              (∀ s0 j0 t0, acc = some (s0, j0, t0) → t < t0) ∧
              (∀ (k : ℕ) (sk : Sphere3), k < j → L[k]? = some sk →
                sk.intersects ray > min_dist_threshold → t < sk.intersects ray)))) := by
  induction L with
  | nil =>
      intro i0 acc hacc
      constructor
      · intro h
        simp only [hitFold] at h
        refine ⟨h, ?_⟩
        intro j sj hj
        simp at hj
      · intro s i t h
        simp only [hitFold] at h
        refine ⟨hacc s i t h, ?_, Or.inl h⟩
        intro j sj hj
        simp at hj
  | cons s' rest IH =>
      intro i0 acc hacc
      rcases acc with _ | ⟨s0, i0', t0⟩
      · by_cases hgt : s'.intersects ray > min_dist_threshold
        · have heq : hitFold ray (s' :: rest) i0 none
              = hitFold ray rest (i0 + 1) (some (s', i0, s'.intersects ray)) := by
            simp only [hitFold]
            rw [if_pos hgt]
          have haccnew : ∀ s0 j0 t0,
              (some (s', i0, s'.intersects ray) : Option (Sphere3 × ℕ × ℝ)) = some (s0, j0, t0) →
              t0 > min_dist_threshold := by
            intro a b c hx
            simp only [Option.some.injEq, Prod.mk.injEq] at hx
            rw [← hx.2.2]
            exact hgt
          obtain ⟨hrec1, hrec2⟩ := IH (i0 + 1) (some (s', i0, s'.intersects ray)) haccnew
          constructor
          · intro h
            rw [heq] at h
            exact absurd (hrec1 h).1 (by simp)
          · intro s i t h
            rw [heq] at h
            obtain ⟨h1, h2, h3⟩ := hrec2 s i t h
            refine ⟨h1, ?_, ?_⟩
            · intro j sj hj hv
              rcases j with _ | j
              · rw [List.getElem?_cons_zero] at hj
                simp only [Option.some.injEq] at hj
                subst hj
                rcases h3 with h3 | ⟨jj, hj1, hj2, hj3, hbeat, hlt⟩
                · simp only [Option.some.injEq, Prod.mk.injEq] at h3
                  exact le_of_eq h3.2.2.symm
                · exact le_of_lt (hbeat s' i0 (s'.intersects ray) rfl)
              · rw [List.getElem?_cons_succ] at hj
                exact h2 j sj hj hv
            · right
              rcases h3 with h3 | ⟨jj, hj1, hj2, hj3, hbeat, hlt⟩
              · simp only [Option.some.injEq, Prod.mk.injEq] at h3
                obtain ⟨hs, hi, ht⟩ := h3
                refine ⟨0, ?_, by omega, ?_, ?_, ?_⟩
                · rw [List.getElem?_cons_zero, hs]
                · rw [← hs, ht]
                · intro a b c hx
                  simp at hx
                · intro k sk hk hks hkv
                  exact absurd hk (Nat.not_lt_zero k)
              · refine ⟨jj + 1, ?_, by omega, hj3, ?_, ?_⟩
                · rw [List.getElem?_cons_succ]
                  exact hj1
                · intro a b c hx
                  simp at hx
                · intro k sk hk hks hkv
                  rcases k with _ | k
                  · rw [List.getElem?_cons_zero] at hks
                    simp only [Option.some.injEq] at hks
                    subst hks
                    exact hbeat s' i0 (s'.intersects ray) rfl
                  · rw [List.getElem?_cons_succ] at hks
                    exact hlt k sk (by omega) hks hkv
        · have heq : hitFold ray (s' :: rest) i0 none
              = hitFold ray rest (i0 + 1) none := by
            simp only [hitFold]
            rw [if_neg hgt]
          have haccnew : ∀ s0 j0 t0,
              (none : Option (Sphere3 × ℕ × ℝ)) = some (s0, j0, t0) →
              t0 > min_dist_threshold := by
            intro a b c hx
            simp at hx
          obtain ⟨hrec1, hrec2⟩ := IH (i0 + 1) none haccnew
          constructor
          · intro h
            rw [heq] at h
            obtain ⟨-, hall⟩ := hrec1 h
            refine ⟨rfl, ?_⟩
            intro j sj hj
            rcases j with _ | j
            · rw [List.getElem?_cons_zero] at hj
              simp only [Option.some.injEq] at hj
              subst hj
              exact not_lt.mp hgt
            · rw [List.getElem?_cons_succ] at hj
              exact hall j sj hj
          · intro s i t h
            rw [heq] at h
            obtain ⟨h1, h2, h3⟩ := hrec2 s i t h
            refine ⟨h1, ?_, ?_⟩
            · intro j sj hj hv
              rcases j with _ | j
              · rw [List.getElem?_cons_zero] at hj
                simp only [Option.some.injEq] at hj
                subst hj
                exact absurd hv hgt
              · rw [List.getElem?_cons_succ] at hj
                exact h2 j sj hj hv
            · right
              rcases h3 with h3 | ⟨jj, hj1, hj2, hj3, hbeat, hlt⟩
              · simp at h3
              · refine ⟨jj + 1, ?_, by omega, hj3, ?_, ?_⟩
                · rw [List.getElem?_cons_succ]
                  exact hj1
                · intro a b c hx
                  simp at hx
                · intro k sk hk hks hkv
                  rcases k with _ | k
                  · rw [List.getElem?_cons_zero] at hks
                    simp only [Option.some.injEq] at hks
                    subst hks
                    exact absurd hkv hgt
                  · rw [List.getElem?_cons_succ] at hks
                    exact hlt k sk (by omega) hks hkv
      · have ht0 : t0 > min_dist_threshold := hacc s0 i0' t0 rfl
        by_cases hc : s'.intersects ray < t0 ∧ s'.intersects ray > min_dist_threshold
        · have heq : hitFold ray (s' :: rest) i0 (some (s0, i0', t0))
              = hitFold ray rest (i0 + 1) (some (s', i0, s'.intersects ray)) := by
            simp only [hitFold]
            rw [if_pos hc]
          have haccnew : ∀ a b c,
              (some (s', i0, s'.intersects ray) : Option (Sphere3 × ℕ × ℝ)) = some (a, b, c) →
              c > min_dist_threshold := by
            intro a b c hx
            simp only [Option.some.injEq, Prod.mk.injEq] at hx
            rw [← hx.2.2]
            exact hc.2
          obtain ⟨hrec1, hrec2⟩ := IH (i0 + 1) (some (s', i0, s'.intersects ray)) haccnew
          constructor
          · intro h
            rw [heq] at h
            exact absurd (hrec1 h).1 (by simp)
          · intro s i t h
            rw [heq] at h
            obtain ⟨h1, h2, h3⟩ := hrec2 s i t h
            refine ⟨h1, ?_, ?_⟩
            · intro j sj hj hv
              rcases j with _ | j
              · rw [List.getElem?_cons_zero] at hj
                simp only [Option.some.injEq] at hj
                subst hj
                rcases h3 with h3 | ⟨jj, hj1, hj2, hj3, hbeat, hlt⟩
                · simp only [Option.some.injEq, Prod.mk.injEq] at h3
                  exact le_of_eq h3.2.2.symm
                · exact le_of_lt (hbeat s' i0 (s'.intersects ray) rfl)
              · rw [List.getElem?_cons_succ] at hj
                exact h2 j sj hj hv
            · right
              rcases h3 with h3 | ⟨jj, hj1, hj2, hj3, hbeat, hlt⟩
              · simp only [Option.some.injEq, Prod.mk.injEq] at h3
                obtain ⟨hs, hi, ht⟩ := h3
                refine ⟨0, ?_, by omega, ?_, ?_, ?_⟩
                · rw [List.getElem?_cons_zero, hs]
                · rw [← hs, ht]
                · intro a b c hx
                  simp only [Option.some.injEq, Prod.mk.injEq] at hx
                  rw [← hx.2.2, ← ht]
                  exact hc.1
                · intro k sk hk hks hkv
                  exact absurd hk (Nat.not_lt_zero k)
              · refine ⟨jj + 1, ?_, by omega, hj3, ?_, ?_⟩
                · rw [List.getElem?_cons_succ]
                  exact hj1
                · intro a b c hx
                  simp only [Option.some.injEq, Prod.mk.injEq] at hx
                  rw [← hx.2.2]
                  exact lt_trans (hbeat s' i0 (s'.intersects ray) rfl) hc.1
                · intro k sk hk hks hkv
                  rcases k with _ | k
                  · rw [List.getElem?_cons_zero] at hks
                    simp only [Option.some.injEq] at hks
                    subst hks
                    exact hbeat s' i0 (s'.intersects ray) rfl
                  · rw [List.getElem?_cons_succ] at hks
                    exact hlt k sk (by omega) hks hkv
        · have heq : hitFold ray (s' :: rest) i0 (some (s0, i0', t0))
              = hitFold ray rest (i0 + 1) (some (s0, i0', t0)) := by
            simp only [hitFold]
            rw [if_neg hc]
          obtain ⟨hrec1, hrec2⟩ := IH (i0 + 1) (some (s0, i0', t0)) hacc
          constructor
          · intro h
            rw [heq] at h
            exact absurd (hrec1 h).1 (by simp)
          · intro s i t h
            rw [heq] at h
            obtain ⟨h1, h2, h3⟩ := hrec2 s i t h
            have hle : t ≤ t0 := by
              rcases h3 with h3 | ⟨jj, hj1, hj2, hj3, hbeat, hlt⟩
              · simp only [Option.some.injEq, Prod.mk.injEq] at h3
                exact le_of_eq h3.2.2.symm
              · exact le_of_lt (hbeat s0 i0' t0 rfl)
            refine ⟨h1, ?_, ?_⟩
            · intro j sj hj hv
              rcases j with _ | j
              · rw [List.getElem?_cons_zero] at hj
                simp only [Option.some.injEq] at hj
                subst hj
                have hge : t0 ≤ s'.intersects ray :=
                  not_lt.mp (fun hlt' => hc ⟨hlt', hv⟩)
                exact le_trans hle hge
              · rw [List.getElem?_cons_succ] at hj
                exact h2 j sj hj hv
            · rcases h3 with h3 | ⟨jj, hj1, hj2, hj3, hbeat, hlt⟩
              · exact Or.inl h3
              · right
                refine ⟨jj + 1, ?_, by omega, hj3, hbeat, ?_⟩
                · rw [List.getElem?_cons_succ]
                  exact hj1
                · intro k sk hk hks hkv
                  rcases k with _ | k
                  · rw [List.getElem?_cons_zero] at hks
                    simp only [Option.some.injEq] at hks
                    subst hks
                    have hge : t0 ≤ s'.intersects ray :=
                      not_lt.mp (fun hlt' => hc ⟨hlt', hkv⟩)
                    exact lt_of_lt_of_le (hbeat s0 i0' t0 rfl) hge
                  · rw [List.getElem?_cons_succ] at hks
                    exact hlt k sk (by omega) hks hkv

/-- C1 counterexample: the claim's ratio table is the wrong way round.  At a positive
dot product (ray exiting) with hollow = true and refractive index 3/2 the glass branch
picks ratio 1/(3/2) = 2/3, not the claimed `hollow ? refractive_index :
1/refractive_index` = 3/2 (main.cpp line 209). -/
theorem C1_counterexample :
    ¬ (∀ (n d : Vec3) (hollow : Bool) (ri : ℝ), dot n d > 0 →
        (glassNormalRefr n d hollow ri).2 = if hollow then ri else 1 / ri) := by
  intro h
  have hx := h ⟨0, 0, 1⟩ ⟨0, 0, 1⟩ true (3 / 2) (by norm_num [dot])
  norm_num [glassNormalRefr, dot] at hx

/-- C1 (amended): in the glass branch, entry vs. exit is decided by the sign of
dot(normal, d): positive (ray exiting) flips the normal and sets the refraction ratio
to 1/refractive_index for a hollow surface and refractive_index for a non-hollow one;
negative (ray entering) keeps the normal and sets the ratio to refractive_index for a
hollow surface and 1/refractive_index for a non-hollow one. -/
theorem C1_glass_branch (n d : Vec3) (hollow : Bool) (ri : ℝ) :
    (dot n d > 0 →
      glassNormalRefr n d hollow ri = (-n, if hollow then 1 / ri else ri)) ∧
    (dot n d < 0 →
      glassNormalRefr n d hollow ri = (n, if hollow then ri else 1 / ri)) := by
  constructor
  · intro h
    rw [glassNormalRefr, if_pos h]
  · intro h
    rw [glassNormalRefr, if_neg (by linarith : ¬ dot n d > 0)]

/-- Witness for C1 at a concrete exiting hollow-glass configuration. -/
theorem C1_witness :
    glassNormalRefr ⟨0, 0, 1⟩ ⟨0, 0, 1⟩ true (3 / 2) = (⟨0, 0, -1⟩, 2 / 3) := by
  have h := (C1_glass_branch ⟨0, 0, 1⟩ ⟨0, 0, 1⟩ true (3 / 2)).1 (by norm_num [dot])
  rw [h]
  norm_num [Vec3.neg_def, Prod.mk.injEq, Vec3.mk.injEq]

/-- C2: the claim (and spec sections 4.7, 9) requires the per-pixel average to divide
by exactly N, but main.cpp line 391 divides by N+1.  With a single sample (N = 1) of
colour (2,2,2) the code's average is (1,1,1), not (2,2,2); with the program's N = 200
an accumulated (201,201,201) averages to (1,1,1) rather than 201/200·(1,1,1). -/
theorem C2_divisor_is_succ :
    pixelEstimate [(⟨2, 2, 2⟩ : Colour)] = ⟨1, 1, 1⟩ ∧
    ((⟨1, 1, 1⟩ : Colour) ≠ ⟨2, 2, 2⟩) ∧
    averagePixel ⟨201, 201, 201⟩ 200 = ⟨1, 1, 1⟩ := by
  refine ⟨?_, ?_, ?_⟩ <;>
    norm_num [pixelEstimate, averagePixel, List.foldl, Vec3.div_def, Vec3.add_def,
      Vec3.mk.injEq]

/-- C3: `Sphere3::intersects` solves the half-b quadratic of the claim — a = |d|²,
half_b = dot(origin − center, d), c = |origin − center|² − r², discriminant =
half_b² − a·c — reporting no hit (the sentinel −1.0, below the threshold, which the
caller treats as no valid hit) when the discriminant is negative, and otherwise
returning the smaller root (−half_b − √disc)/a when it exceeds the threshold 0.001 and
the larger root (−half_b + √disc)/a otherwise. -/
theorem C3_intersects_halfb (ray : Line3) (s : Sphere3) :
    s.intersects ray =
      (let a := ray.d.abs ^ 2
       let half_b := dot (ray.p - s.p) ray.d
       let c := (ray.p - s.p).abs ^ 2 - s.r * s.r
       let discriminant := half_b * half_b - a * c
       if discriminant < 0 then -1.0
       else if (-half_b - Real.sqrt discriminant) / a > 0.001 then
         (-half_b - Real.sqrt discriminant) / a
       else (-half_b + Real.sqrt discriminant) / a) := by
  simp only [Sphere3.intersects, Vec3.sq_abs, min_dist_threshold]

/-- C4: the scene query scans the surfaces in list order and selects the surface with
the smallest intersection t strictly greater than the threshold (0.001); any returned
t at or below the threshold — including the −1 no-hit sentinel — is no valid hit, and
on an equal smallest t the first-encountered surface wins (every strictly earlier
surface with a valid t has a strictly larger t). -/
theorem C4_closestHit_min (surfaces : List Sphere3) (ray : Line3) :
    (closestHit surfaces ray = none →
      ∀ (j : ℕ) (sj : Sphere3), surfaces[j]? = some sj →
        sj.intersects ray ≤ min_dist_threshold)
    ∧ (∀ (s : Sphere3) (i : ℕ) (t : ℝ), closestHit surfaces ray = some (s, i, t) →
        surfaces[i]? = some s ∧ t = s.intersects ray ∧ t > min_dist_threshold ∧
        (∀ (j : ℕ) (sj : Sphere3), surfaces[j]? = some sj →
          sj.intersects ray > min_dist_threshold → t ≤ sj.intersects ray) ∧
        (∀ (j : ℕ) (sj : Sphere3), j < i → surfaces[j]? = some sj →
          sj.intersects ray > min_dist_threshold → t < sj.intersects ray))
    ∧ min_dist_threshold = 0.001 := by
  obtain ⟨hp1, hp2⟩ := hitFold_post ray surfaces 0 none (by intro a b c hx; simp at hx)
  refine ⟨?_, ?_, rfl⟩
  · intro h j sj hj
    exact (hp1 h).2 j sj hj
  · intro s i t h
    obtain ⟨h1, h2, h3⟩ := hp2 s i t h
    rcases h3 with h3 | ⟨j, hj1, hj2, hj3, hbeat, hlt⟩
    · simp at h3
    · have hij : i = j := by omega
      subst hij
      exact ⟨hj1, hj3, h1, h2, fun k sk hk hks hkv => hlt k sk hk hks hkv⟩

/-- Witness for C4 at a two-sphere tie: both spheres yield t = 2 on the same ray and
the scan keeps the first (index 0). -/
theorem C4_witness :
    [sphereW, sphereW][0]? = some sphereW ∧ (2 : ℝ) = sphereW.intersects rayW ∧
      (2 : ℝ) > min_dist_threshold := by
  obtain ⟨h1, h2, h3, -, -⟩ :=
    (C4_closestHit_min [sphereW, sphereW] rayW).2.1 sphereW 0 2 closestHitW2
  exact ⟨h1, h2, h3⟩

/-- C5: on a ray with a valid nearest hit, the integrator at remaining depth 1 returns
black (0,0,0) regardless of the hit surface's material and of the scatter draws (the
result does not depend on the draw stream, so no further ray is scattered). -/
theorem C5_depth_one_black (rands : ℕ → Draws) (surfaces : List Sphere3) (ray : Line3)
    (pr : Sphere3 × ℕ × ℝ) (h : closestHit surfaces ray = some pr) :
    ray_recur rands surfaces 1 ray = ⟨0, 0, 0⟩ := by
  obtain ⟨s, i, t⟩ := pr
  show ray_recur rands surfaces (0 + 1) ray = ⟨0, 0, 0⟩
  simp only [ray_recur]
  rw [h]
  simp

/-- Witness for C5: a concrete one-sphere scene whose hit at depth 1 yields black. -/
theorem C5_witness : ray_recur rands0 [sphereW] 1 rayW = ⟨0, 0, 0⟩ :=
  C5_depth_one_black rands0 [sphereW] rayW (sphereW, 0, 2) closestHitW

/-- C6: a ray that hits no surface gets the background blend (1−t)·white + t·sky with
t = 0.5·(unit(d).z + 1) and sky = (25,114,255)/255 — a function only of the ray
direction's vertical component; in particular direction (0,0,1) gives t = 1 and the
pure sky colour, and direction (0,0,−1) gives t = 0 and pure white. -/
theorem C6_background_blend :
    (∀ (rands : ℕ → Draws) (surfaces : List Sphere3) (n : ℕ) (ray : Line3),
      closestHit surfaces ray = none →
      ray_recur rands surfaces n ray =
        (1 - 0.5 * (ray.d.unit.z + 1)) • (⟨1, 1, 1⟩ : Colour)
          + (0.5 * (ray.d.unit.z + 1)) • ((⟨25, 114, 255⟩ : Colour) / (255 : ℝ)))
    ∧ (∀ (rands : ℕ → Draws) (surfaces : List Sphere3) (n : ℕ) (p : Vec3),
        closestHit surfaces ⟨p, ⟨0, 0, 1⟩⟩ = none →
        ray_recur rands surfaces n ⟨p, ⟨0, 0, 1⟩⟩ = (⟨25, 114, 255⟩ : Colour) / (255 : ℝ))
    ∧ (∀ (rands : ℕ → Draws) (surfaces : List Sphere3) (n : ℕ) (p : Vec3),
        closestHit surfaces ⟨p, ⟨0, 0, -1⟩⟩ = none →
        ray_recur rands surfaces n ⟨p, ⟨0, 0, -1⟩⟩ = ⟨1, 1, 1⟩) := by
  have hbg : ∀ (rands : ℕ → Draws) (surfaces : List Sphere3) (n : ℕ) (ray : Line3),
      closestHit surfaces ray = none → ray_recur rands surfaces n ray = background ray := by
    intro rands surfaces n ray h
    cases n with
    | zero => simp only [ray_recur, h]
    | succ n => simp only [ray_recur, h]
  refine ⟨?_, ?_, ?_⟩
  · intro rands surfaces n ray h
    rw [hbg rands surfaces n ray h]
    rfl
  · intro rands surfaces n p h
    rw [hbg _ _ _ _ h]
    norm_num [background, Vec3.unit, Vec3.abs, Vec3.abs2, Real.sqrt_one, Vec3.div_def,
      Vec3.smul_def, Vec3.add_def, Vec3.mk.injEq]
  · intro rands surfaces n p h
    rw [hbg _ _ _ _ h]
    norm_num [background, Vec3.unit, Vec3.abs, Vec3.abs2, Real.sqrt_one, Vec3.div_def,
      Vec3.smul_def, Vec3.add_def, Vec3.mk.injEq]

/-- Witness for C6: an empty scene and an upward ray give the pure sky colour. -/
theorem C6_witness :
    ray_recur rands0 [] 7 ⟨⟨0, 0, 0⟩, ⟨0, 0, 1⟩⟩ = (⟨25, 114, 255⟩ : Colour) / (255 : ℝ) :=
  C6_background_blend.2.1 rands0 [] 7 ⟨0, 0, 0⟩ rfl

/-- C7 counterexample: an unrecognized material kind is not fatal in the code — the
`default:` branch of `Sphere3::get_next_ray` emits its message and falls through with
the substitute ray Line3((0,0,0),(0,0,0)), and the integrator continues rendering by
recursing on that substitute, refuting the claimed must-not-continue policy at a
concrete one-sphere scene with material code 7. -/
theorem C7_counterexample : ¬ noContinueOnUnknownKind := by
  intro h
  apply h rands0 [badS] 1 rayW badS 0 2 closestHitBad
    (by norm_num [badS, Sphere3.mkFull, Material.matte])
    (by norm_num [badS, Sphere3.mkFull, Material.metal])
    (by norm_num [badS, Sphere3.mkFull, Material.glass])
  show ray_recur rands0 [badS] (2 + 1) rayW = _
  simp only [ray_recur]
  rw [closestHitBad]
  norm_num

/-- C7 (amended): scattering at a surface whose material kind is none of matte, metal,
glass is not fatal: the implementation reports the error (message on std::cerr,
recorded as the errored flag) and returns the substitute degenerate ray with origin
(0,0,0) and direction (0,0,0), skipping the final re-normalization, and rendering
continues with this substitute. -/
theorem C7_fallthrough_result (s : Sphere3) (dr : Draws) (ray : Line3) (t : ℝ)
    (h1 : s.material ≠ Material.matte) (h2 : s.material ≠ Material.metal)
    (h3 : s.material ≠ Material.glass) :
    s.get_next_ray dr ray t = ⟨⟨⟨0, 0, 0⟩, ⟨0, 0, 0⟩⟩, true⟩ := by
  rw [Sphere3.get_next_ray, if_neg h1, if_neg h2, if_neg h3]

/-- Witness for C7's amended statement at material code 7. -/
theorem C7_witness :
    badS.get_next_ray dr1 rayW 5 = ⟨⟨⟨0, 0, 0⟩, ⟨0, 0, 0⟩⟩, true⟩ :=
  C7_fallthrough_result badS dr1 rayW 5
    (by norm_num [badS, Sphere3.mkFull, Material.matte])
    (by norm_num [badS, Sphere3.mkFull, Material.metal])
    (by norm_num [badS, Sphere3.mkFull, Material.glass])

/-- C8: for every hit on a sphere with a recognized material kind (matte, metal or
glass) the scattered ray's origin is the hit point ray(t), its direction is
unconditionally the re-normalization of the branch's raw scatter direction, and — the
normalization being defined, i.e. the raw direction non-zero (spec section 4.1) — the
returned direction has unit length. -/
theorem C8_scatter_normalized (s : Sphere3) (dr : Draws) (ray : Line3) (t : ℝ)
    (h : s.material = Material.matte ∨ s.material = Material.metal ∨
      s.material = Material.glass) :
    (s.get_next_ray dr ray t).errored = false ∧
    (s.get_next_ray dr ray t).ray.p = ray.eval t ∧
    (s.get_next_ray dr ray t).ray.d = (s.scatterDir dr ray t).unit ∧
    (s.scatterDir dr ray t ≠ ⟨0, 0, 0⟩ → ((s.get_next_ray dr ray t).ray.d).abs = 1) := by
  have hsplit : s.get_next_ray dr ray t
      = ⟨⟨ray.eval t, (s.scatterDir dr ray t).unit⟩, false⟩ := by
    rcases h with hm | hm | hm <;>
      simp [Sphere3.get_next_ray, Sphere3.scatterDir, hm, Material.matte, Material.metal,
        Material.glass]
  rw [hsplit]
  refine ⟨rfl, rfl, rfl, ?_⟩
  intro hne
  exact Vec3.abs_unit _ hne

/-- The raw metal scatter direction of the C8 witness configuration. -/
theorem scatterDirM : sphereM.scatterDir dr1 rayW 2 = ⟨0, 0, -1⟩ := by
  norm_num [Sphere3.scatterDir, sphereM, Sphere3.mkFull, Material.matte, Material.metal,
    Sphere3.metalDir, rayW, dr1, Line3.eval, Vec3.smul_def, Vec3.add_def, Vec3.sub_def,
    Vec3.unit, Vec3.abs, Vec3.abs2, Vec3.div_def, dot, Real.sqrt_one, Vec3.mk.injEq]

/-- Witness for C8 at a concrete metal hit: origin is the hit point and the returned
direction has unit length. -/
theorem C8_witness :
    (sphereM.get_next_ray dr1 rayW 2).ray.p = rayW.eval 2 ∧
    ((sphereM.get_next_ray dr1 rayW 2).ray.d).abs = 1 := by
  obtain ⟨-, hp, -, hu⟩ :=
    C8_scatter_normalized sphereM dr1 rayW 2 (Or.inr (Or.inl rfl))
  refine ⟨hp, hu ?_⟩
  rw [scatterDirM]
  simp [Vec3.mk.injEq]

/-- C9: the full Camera constructor normalizes the supplied look direction before
deriving state, so for a non-zero look direction v and any k > 0, building the camera
with k·v yields exactly the same camera — focal length, defocus-blur radius, viewport
width, origin, right and up basis vectors — and hence the same generate_ray behaviour
as building it with v. -/
theorem C9_camera_scale (aspect : ℝ) (lookat v : Vec3) (vh fov blur k : ℝ)
    (hv : v ≠ ⟨0, 0, 0⟩) (hk : 0 < k) :
    Camera.build aspect lookat (k • v) vh fov blur
      = Camera.build aspect lookat v vh fov blur ∧
    ∀ u g1 g2 x y : ℝ,
      (Camera.build aspect lookat (k • v) vh fov blur).generate_ray u g1 g2 x y =
        (Camera.build aspect lookat v vh fov blur).generate_ray u g1 g2 x y := by
  have hcam : Camera.build aspect lookat (k • v) vh fov blur
      = Camera.build aspect lookat v vh fov blur := by
    unfold Camera.build
    rw [Vec3.unit_smul k hk v]
  exact ⟨hcam, fun u g1 g2 x y => by rw [hcam]⟩

/-- Witness for C9: doubling a concrete look direction leaves the camera unchanged. -/
theorem C9_witness :
    Camera.build 1 ⟨0, 0, 0⟩ ((2 : ℝ) • ⟨0, 1, 0⟩) 2 90 0
      = Camera.build 1 ⟨0, 0, 0⟩ ⟨0, 1, 0⟩ 2 90 0 :=
  (C9_camera_scale 1 ⟨0, 0, 0⟩ ⟨0, 1, 0⟩ 2 90 0 2 (by simp [Vec3.mk.injEq])
    (by norm_num)).1

/-- C10 counterexample: the three-argument constructor `Sphere3(centre, radius,
material)` takes no is_hollow argument yet does not give the flag a defined value —
the indeterminate junk the member is left holding can be true, so such a sphere need
not have is_hollow = false. -/
theorem C10_counterexample :
    ¬ (∀ junk : Bool, (Sphere3.mkPRM ⟨0, 0, 0⟩ 1 Material.glass junk).is_hollow = false) := by
  intro h
  have hx := h true
  simp [Sphere3.mkPRM] at hx

/-- C10 (amended): only the six-argument constructor initializes is_hollow — to the
supplied argument, hence false when the C++ default argument is used; the other three
constructors leave the flag uninitialized, so its value is whatever indeterminate junk
the member holds. -/
theorem C10_hollow_init (c : Vec3) (radius : ℝ) (m : Material) (refl : Colour)
    (fz : ℝ) (b junk : Bool) :
    (Sphere3.mkFull c radius m refl fz b).is_hollow = b ∧
    (Sphere3.mkFull5 c radius m refl fz).is_hollow = false ∧
    (Sphere3.mk0 junk).is_hollow = junk ∧
    (Sphere3.mkPR c radius junk).is_hollow = junk ∧
    (Sphere3.mkPRM c radius m junk).is_hollow = junk :=
  ⟨rfl, rfl, rfl, rfl, rfl⟩

end RayTracer
